import Mathlib

/-!
Shallow embedding of `fintec/data.py` (repository `bhenk/fintec`).

The module gathers and manipulates financial data: it resolves data-file
paths against an environment-configured base directory, reads tabular data
from csv or spreadsheet files, coerces the row index to datetime values,
applies nearest-neighbour interpolation to interior missing values, and
carries a closed enumeration `Idx` of seven market indices with derived
strings (local filename, historical-data URL, manual-download filename).

Modelling choices:
  * the ambient process environment (only the variable `U_FIN_DATA_BASE`
    is ever read) is passed explicitly as an `Option String`;
  * the external pandas read/parse routines are abstract fields of a
    `Pandas` structure returning `Except PdError _`, so that error
    propagation through the embedded module code is exact;
  * the pandas interpolate call with method "nearest" on axis 0 is embedded as
    `interpCol` below: per column, an interior missing value (one with a
    present value before it and after it in row order) is filled with the
    value of the valid row whose index value is nearest (ties to the
    earlier row), while leading and trailing missing runs stay missing;
  * date values are timestamps (`Int`), cell values are rationals.
-/

/-- The environment variable name for the data base directory (data.py line 16). -/
def U_FIN_DATA_BASE : String := "U_FIN_DATA_BASE"

/-- Model of Python `str.lower` (the strings lowered in data.py are ASCII). -/
def pyLower (s : String) : String := ⟨s.data.map Char.toLower⟩

/-- Whether a path string starts with the separator character. -/
def strStartsWithSlash (s : String) : Bool :=
  match s.data with
  | [] => false
  | c :: _ => c == '/'

/-- Whether a path string ends with the separator character. -/
def strEndsWithSlash (s : String) : Bool :=
  match s.data.getLast? with
  | some c => c == '/'
  | none => false

/-- Model of `os.path.join` on two components (posixpath.join): if the second
component is absolute it wins; otherwise it is appended to the first,
inserting a separator unless the first is empty or already ends in one. -/
def osJoin (a b : String) : String :=
  if strStartsWithSlash b then b
  else if a == "" || strEndsWithSlash a then a ++ b
  else a ++ "/" ++ b

/-- The effective textual base a first component contributes to `osJoin`
when the second component is relative. -/
def joinBase (a : String) : String :=
  if a == "" || strEndsWithSlash a then a else a ++ "/"

/-- Embedding of `_data_path` (data.py lines 20-28):
the join of the environment value (default "data") with the filename.
The ambient environment variable is the explicit argument `env`. -/
def _data_path (env : Option String) (filename : String) : String :=
  osJoin (env.getD "data") filename

/-- The extension part of `os.path.splitext`: the suffix of the basename
starting at its last dot, empty when the basename has no dot after its
leading dots (CPython `genericpath._splitext`). This helper returns the
suffix of a character list starting at its last dot. -/
def lastDotSuffix : List Char → List Char
  | [] => []
  | c :: cs =>
    if cs.contains '.' then lastDotSuffix cs
    else if c == '.' then c :: cs
    else lastDotSuffix cs

/-- Model of `os.path.splitext(p)[1]`. -/
def splitext_ext (p : String) : String :=
  let bn := (p.data.reverse.takeWhile fun c => c != '/').reverse
  let rest := bn.dropWhile fun c => c == '.'
  if rest.contains '.' then ⟨lastDotSuffix rest⟩ else ""

/-- Model of the Python type `_STRINT = Union[str, int]` (data.py line 13). -/
inductive StrInt where
  | s (v : String)
  | i (n : Int)
deriving DecidableEq

/-- Model of `_IDXCOL = Union[_STRINT, Sequence[int], None]` (data.py line 14). -/
inductive IdxCol where
  | si (v : StrInt)
  | seq (l : List Int)
  | noIndex
deriving DecidableEq

/-- Errors surfaced by the underlying pandas read/parse routines:
`FileNotFoundError`, parser errors, and missing sheet/column lookups. -/
inductive PdError where
  | fileNotFound (path : String)
  | parserError (msg : String)
  | indexError (msg : String)
deriving DecidableEq

/-- A raw parsed table: index labels as read from the file, and columns of
optional cell values (a `none` cell is a missing value / NaN). -/
structure RawFrame where
  index : List String
  cols : List (List (Option Rat))
deriving DecidableEq

/-- A date-indexed table: index coerced to timestamps, columns of optional
cell values. -/
structure Frame where
  index : List Int
  cols : List (List (Option Rat))
deriving DecidableEq

/-- The external pandas routines used by data.py, abstracted: csv parsing,
spreadsheet parsing (with a sheet selector), and datetime coercion of the
index labels. -/
structure Pandas where
  read_csv : String → IdxCol → Except PdError RawFrame
  read_excel : String → StrInt → IdxCol → Except PdError RawFrame
  to_datetime : List String → Except PdError (List Int)

/-- Positions strictly before `i` holding a present value. -/
def validBefore (ys : List (Option Rat)) (i : Nat) : Bool :=
  (List.range i).any fun j => (ys.getD j none).isSome

/-- Positions strictly after `i` holding a present value. -/
def validAfter (ys : List (Option Rat)) (i : Nat) : Bool :=
  (List.range ys.length).any fun j => decide (i < j) && (ys.getD j none).isSome

/-- All positions of the column holding a present value. -/
def validIdxs (ys : List (Option Rat)) : List Nat :=
  (List.range ys.length).filter fun k => (ys.getD k none).isSome

/-- The position, among the candidates `ks`, whose index value is nearest to
`xi`; ties go to the earlier candidate (scipy `nearest` rounds down). -/
def argNearest (idx : List Int) (xi : Int) : List Nat → Option Nat
  | [] => none
  | k :: ks =>
    match argNearest idx xi ks with
    | none => some k
    | some m =>
      if (idx.getD m 0 - xi).natAbs < (idx.getD k 0 - xi).natAbs then some m
      else some k

/-- Embedding of one column of the pandas interpolate call with method
"nearest" on axis 0 (data.py line 58): an interior missing value is replaced by the value of the
present row whose index value is nearest; leading and trailing missing runs
and present values are unchanged. -/
def interpCol (idx : List Int) (ys : List (Option Rat)) : List (Option Rat) :=
  (List.range ys.length).map fun i =>
    match ys.getD i none with
    | some v => some v
    | none =>
      if validBefore ys i && validAfter ys i then
        match argNearest idx (idx.getD i 0) (validIdxs ys) with
        | some j => ys.getD j none
        | none => none
      else none

/-- The nearest-interpolation step applied to a whole frame. -/
def Frame.interpolate_nearest (df : Frame) : Frame :=
  { index := df.index, cols := df.cols.map (interpCol df.index) }

/-- Embedding of `_read_data` (data.py lines 31-44): dispatch on the
lower-cased filename extension; `.csv` goes to csv parsing (the sheet name
is not consulted), anything else to spreadsheet parsing with the sheet
selector; both read from the `_data_path`-resolved path. -/
def _read_data (pd : Pandas) (env : Option String) (filename : String)
    (index_col : IdxCol := IdxCol.si (StrInt.i 0))
    (sheet_name : StrInt := StrInt.i 0) : Except PdError RawFrame :=
  if pyLower (splitext_ext filename) == ".csv" then
    pd.read_csv (_data_path env filename) index_col
  else
    pd.read_excel (_data_path env filename) sheet_name index_col

/-- Embedding of `_read_date_indexed_data` (data.py lines 47-59): read the
raw table, coerce its index to datetimes, interpolate nearest; any failure
of an underlying step propagates unchanged. -/
def _read_date_indexed_data (pd : Pandas) (env : Option String) (filename : String)
    (index_col : IdxCol := IdxCol.si (StrInt.i 0))
    (sheet_name : StrInt := StrInt.i 0) : Except PdError Frame :=
  match _read_data pd env filename index_col sheet_name with
  | Except.error e => Except.error e
  | Except.ok df =>
    match pd.to_datetime df.index with
    | Except.error e => Except.error e
    | Except.ok idx =>
      Except.ok (Frame.interpolate_nearest { index := idx, cols := df.cols })

/-- Embedding of `df_rates` (data.py lines 62-73): delegates to
`_read_date_indexed_data`, with defaults "fondsen.xlsx" and "koersen". -/
def df_rates (pd : Pandas) (env : Option String)
    (filename : String := "fondsen.xlsx")
    (index_col : IdxCol := IdxCol.si (StrInt.i 0))
    (sheet_name : StrInt := StrInt.s "koersen") : Except PdError Frame :=
  _read_date_indexed_data pd env filename index_col sheet_name

/-- Embedding of the enumeration `Idx` (data.py lines 76-110). -/
inductive Idx where
  | DOW
  | SPX
  | NASDAQ100
  | AEX
  | DAX
  | FTSE
  | SHANGHAI
deriving DecidableEq, Fintype

/-- The Python enum member name (`self.name`). -/
def Idx.name : Idx → String
  | .DOW => "DOW"
  | .SPX => "SPX"
  | .NASDAQ100 => "NASDAQ100"
  | .AEX => "AEX"
  | .DAX => "DAX"
  | .FTSE => "FTSE"
  | .SHANGHAI => "SHANGHAI"

/-- The Python enum member value (`self.value`), the investing.com identifier. -/
def Idx.value : Idx → String
  | .DOW => "us-30"
  | .SPX => "us-spx-500"
  | .NASDAQ100 => "nq-100"
  | .AEX => "netherlands-25"
  | .DAX => "germany-30"
  | .FTSE => "uk-100"
  | .SHANGHAI => "shanghai-composite"

/-- `Idx.describe` (data.py lines 88-89): the (name, value) pair. -/
def Idx.describe (i : Idx) : String × String := (i.name, i.value)

/-- `Idx.filename` (data.py lines 91-96): local filename of the index,
the `_data_path` resolution of "indices/", the lowered name and ".csv". -/
def Idx.filename (i : Idx) (env : Option String) : String :=
  _data_path env ("indices/" ++ pyLower i.name ++ ".csv")

/-- `Idx.ic_historical_data_url` (data.py lines 98-103). -/
def Idx.ic_historical_data_url (i : Idx) : String :=
  "https://www.investing.com/indices/" ++ i.value ++ "-historical-data"

/-- `Idx.init_file` (data.py lines 105-110): local filename of the manually
downloaded initial file: "html/", the lowered name and ".html". -/
def Idx.init_file (i : Idx) : String :=
  "html/" ++ pyLower i.name ++ ".html"

/-- The seven members of `Idx`, in declaration order. -/
def allIdx : List Idx :=
  [Idx.DOW, Idx.SPX, Idx.NASDAQ100, Idx.AEX, Idx.DAX, Idx.FTSE, Idx.SHANGHAI]

/-- A concrete `Pandas` instance used to exercise the loaders on closed
inputs: csv parsing fails on one designated missing path and otherwise
yields a three-row single-column table with an interior gap. -/
def samplePandas : Pandas where
  read_csv := fun path _ =>
    if path == "data/missing.csv" then Except.error (PdError.fileNotFound path)
    else Except.ok { index := ["2020-01-01", "2020-01-02", "2020-01-03"],
                     cols := [[some 10, none, some 12]] }
  read_excel := fun _ _ _ =>
    Except.ok { index := ["2020-01-01"], cols := [[some 1]] }
  to_datetime := fun l => Except.ok ((List.range l.length).map fun n => (n : Int))

/-! ### Path-resolution lemmas -/

/-- Appending a nonempty second string fixes the last character. -/
theorem strAppend_data_getLast? (a b : String) (hb : b.data ≠ []) :
    (a ++ b).data.getLast? = b.data.getLast? := by
  rw [String.data_append, List.getLast?_append]
  obtain ⟨c, hc⟩ := Option.isSome_iff_exists.mp (List.getLast?_isSome.mpr hb)
  rw [hc]
  rfl

/-- On a relative second component, `osJoin` prepends the effective base. -/
theorem osJoin_rel (a b : String) (hb : strStartsWithSlash b = false) :
    osJoin a b = joinBase a ++ b := by
  unfold osJoin joinBase
  rw [hb]
  by_cases hc : (a == "" || strEndsWithSlash a) = true
  · rw [if_neg (by simp), if_pos hc, if_pos hc]
  · rw [if_neg (by simp), if_neg hc, if_neg hc]

/-- `osJoin` with a relative second component keeps its last character. -/
theorem osJoin_data_getLast? (a b : String) (hb : b.data ≠ []) :
    (osJoin a b).data.getLast? = b.data.getLast? := by
  unfold osJoin
  by_cases h1 : strStartsWithSlash b = true
  · rw [if_pos h1]
  · rw [if_neg h1]
    by_cases h2 : (a == "" || strEndsWithSlash a) = true
    · rw [if_pos h2, strAppend_data_getLast? _ _ hb]
    · rw [if_neg h2, strAppend_data_getLast? _ _ hb]

/-- Strings with equal character data are equal. -/
theorem strExt (s t : String) (h : s.data = t.data) : s = t := by
  cases s; cases t; simp_all

/-- Right cancellation for string append. -/
theorem strAppend_right_cancel (p q f : String) (h : p ++ f = q ++ f) : p = q := by
  apply strExt
  have hd : p.data ++ f.data = q.data ++ f.data := by
    rw [← String.data_append, ← String.data_append, h]
  exact List.append_cancel_right hd

/-- Left cancellation for string append. -/
theorem strAppend_left_cancel (p f g : String) (h : p ++ f = p ++ g) : f = g := by
  apply strExt
  have hd : p.data ++ f.data = p.data ++ g.data := by
    rw [← String.data_append, ← String.data_append, h]
  exact List.append_cancel_left hd

/-! ### Interpolation lemmas -/

/-- Characterization of `validBefore`. -/
theorem validBefore_iff (ys : List (Option Rat)) (i : Nat) :
    validBefore ys i = true ↔ ∃ j, j < i ∧ (ys.getD j none).isSome := by
  simp [validBefore, List.any_eq_true, List.mem_range]

/-- Characterization of `validAfter`. -/
theorem validAfter_iff (ys : List (Option Rat)) (i : Nat) :
    validAfter ys i = true ↔ ∃ j, j < ys.length ∧ i < j ∧ (ys.getD j none).isSome := by
  simp [validAfter, List.any_eq_true, List.mem_range, and_assoc]

/-- Characterization of membership in `validIdxs`. -/
theorem mem_validIdxs (ys : List (Option Rat)) (k : Nat) :
    k ∈ validIdxs ys ↔ k < ys.length ∧ (ys.getD k none).isSome := by
  simp [validIdxs, List.mem_filter, List.mem_range]

/-- `argNearest` only returns `none` on an empty candidate list. -/
theorem argNearest_eq_none (idx : List Int) (xi : Int) (ks : List Nat)
    (h : argNearest idx xi ks = none) : ks = [] := by
  cases ks with
  | nil => rfl
  | cons k ks =>
    simp only [argNearest] at h
    cases hrec : argNearest idx xi ks with
    | none =>
      simp only [hrec] at h
      exact absurd h (by simp)
    | some m =>
      simp only [hrec] at h
      by_cases hc : (idx.getD m 0 - xi).natAbs < (idx.getD k 0 - xi).natAbs
      · rw [if_pos hc] at h
        exact absurd h (by simp)
      · rw [if_neg hc] at h
        exact absurd h (by simp)

/-- `argNearest` returns a candidate of minimal index distance. -/
theorem argNearest_spec (idx : List Int) (xi : Int) :
    ∀ ks j, argNearest idx xi ks = some j →
      j ∈ ks ∧ ∀ k ∈ ks, (idx.getD j 0 - xi).natAbs ≤ (idx.getD k 0 - xi).natAbs := by
  intro ks
  induction ks with
  | nil => intro j h; simp [argNearest] at h
  | cons k ks ih =>
    intro j h
    simp only [argNearest] at h
    cases hrec : argNearest idx xi ks with
    | none =>
      simp only [hrec] at h
      have hks : ks = [] := argNearest_eq_none idx xi ks hrec
      subst hks
      simp only [Option.some.injEq] at h
      subst h
      refine ⟨List.mem_cons_self _ _, ?_⟩
      intro m hm
      rcases List.mem_cons.mp hm with h1 | h2
      · subst h1; exact le_refl _
      · simp at h2
    | some m =>
      simp only [hrec] at h
      obtain ⟨hm_mem, hm_min⟩ := ih m hrec
      by_cases hc : (idx.getD m 0 - xi).natAbs < (idx.getD k 0 - xi).natAbs
      · rw [if_pos hc] at h
        simp only [Option.some.injEq] at h
        subst h
        refine ⟨List.mem_cons_of_mem _ hm_mem, ?_⟩
        intro p hp
        rcases List.mem_cons.mp hp with h1 | h2
        · subst h1; exact le_of_lt hc
        · exact hm_min p h2
      · rw [if_neg hc] at h
        simp only [Option.some.injEq] at h
        subst h
        refine ⟨List.mem_cons_self _ _, ?_⟩
        intro p hp
        rcases List.mem_cons.mp hp with h1 | h2
        · subst h1; exact le_refl _
        · exact le_trans (Nat.le_of_not_lt hc) (hm_min p h2)

/-- `argNearest` succeeds on a nonempty candidate list. -/
theorem argNearest_isSome (idx : List Int) (xi : Int) (ks : List Nat) (h : ks ≠ []) :
    ∃ j, argNearest idx xi ks = some j := by
  cases hres : argNearest idx xi ks with
  | none => exact absurd (argNearest_eq_none idx xi ks hres) h
  | some j => exact ⟨j, rfl⟩

/-- `interpCol` preserves the column length. -/
theorem interpCol_length (idx : List Int) (ys : List (Option Rat)) :
    (interpCol idx ys).length = ys.length := by
  simp [interpCol]

/-- The cell-level unfolding of `interpCol` at an in-range position. -/
theorem interpCol_getD (idx : List Int) (ys : List (Option Rat)) (i : Nat)
    (h : i < ys.length) :
    (interpCol idx ys).getD i none =
      (match ys.getD i none with
       | some v => some v
       | none =>
         if validBefore ys i && validAfter ys i then
           match argNearest idx (idx.getD i 0) (validIdxs ys) with
           | some j => ys.getD j none
           | none => none
         else none) := by
  simp only [interpCol, List.getD, List.get?_map, List.get?_range h]
  rfl

/-- Present cells are unchanged by interpolation. -/
theorem interpCol_getD_some (idx : List Int) (ys : List (Option Rat)) (i : Nat)
    (h : i < ys.length) (v : Rat) (hy : ys.getD i none = some v) :
    (interpCol idx ys).getD i none = some v := by
  rw [interpCol_getD idx ys i h, hy]

/-- Missing cells in a leading or trailing missing run stay missing. -/
theorem interpCol_getD_boundary (idx : List Int) (ys : List (Option Rat)) (i : Nat)
    (h : i < ys.length) (hy : ys.getD i none = none)
    (hb : validBefore ys i = false ∨ validAfter ys i = false) :
    (interpCol idx ys).getD i none = none := by
  rw [interpCol_getD idx ys i h, hy]
  have hcond : (validBefore ys i && validAfter ys i) = false := by
    rcases hb with hb | hb <;> simp [hb]
  rw [hcond]
  simp

/-- An interior missing cell is filled with the value of a present cell
whose index value is nearest among all present cells. -/
theorem interpCol_getD_interior (idx : List Int) (ys : List (Option Rat)) (i : Nat)
    (h : i < ys.length) (hy : ys.getD i none = none)
    (hbef : validBefore ys i = true) (haft : validAfter ys i = true) :
    ∃ j, j < ys.length ∧ (ys.getD j none).isSome ∧
      (interpCol idx ys).getD i none = ys.getD j none ∧
      ∀ k, k < ys.length → (ys.getD k none).isSome →
        (idx.getD j 0 - idx.getD i 0).natAbs ≤ (idx.getD k 0 - idx.getD i 0).natAbs := by
  obtain ⟨j0, hj0, hj0s⟩ := (validBefore_iff ys i).mp hbef
  have hne : validIdxs ys ≠ [] := by
    intro hemp
    have : j0 ∈ validIdxs ys := (mem_validIdxs ys j0).mpr ⟨lt_trans hj0 h, hj0s⟩
    rw [hemp] at this
    simp at this
  obtain ⟨j, hj⟩ := argNearest_isSome idx (idx.getD i 0) (validIdxs ys) hne
  obtain ⟨hj_mem, hj_min⟩ := argNearest_spec idx (idx.getD i 0) (validIdxs ys) j hj
  obtain ⟨hj_lt, hj_s⟩ := (mem_validIdxs ys j).mp hj_mem
  refine ⟨j, hj_lt, hj_s, ?_, ?_⟩
  · rw [interpCol_getD idx ys i h, hy]
    have hcond : (validBefore ys i && validAfter ys i) = true := by
      simp [hbef, haft]
    rw [hcond, hj]
    rfl
  · intro k hk hks
    exact hj_min k ((mem_validIdxs ys k).mpr ⟨hk, hks⟩)

/-- If an interpolated cell is missing, the original cell was missing and
not interior. -/
theorem interpCol_none_inv (idx : List Int) (ys : List (Option Rat)) (i : Nat)
    (h : i < ys.length) (hn : (interpCol idx ys).getD i none = none) :
    ys.getD i none = none ∧ (validBefore ys i = false ∨ validAfter ys i = false) := by
  cases hy : ys.getD i none with
  | some v =>
    rw [interpCol_getD_some idx ys i h v hy] at hn
    exact absurd hn (by simp)
  | none =>
    refine ⟨rfl, ?_⟩
    by_contra hb
    push_neg at hb
    obtain ⟨hb1, hb2⟩ := hb
    have hbef : validBefore ys i = true := by
      cases hv : validBefore ys i
      · exact absurd hv hb1
      · rfl
    have haft : validAfter ys i = true := by
      cases hv : validAfter ys i
      · exact absurd hv hb2
      · rfl
    obtain ⟨j, _, hjs, hfill, _⟩ := interpCol_getD_interior idx ys i h hy hbef haft
    rw [hfill] at hn
    rw [hn] at hjs
    simp at hjs

/-- If an interpolated cell is present, the original cell was present or
the position was interior. -/
theorem interpCol_isSome_inv (idx : List Int) (ys : List (Option Rat)) (i : Nat)
    (h : i < ys.length) (hs : ((interpCol idx ys).getD i none).isSome) :
    (ys.getD i none).isSome ∨ (validBefore ys i = true ∧ validAfter ys i = true) := by
  cases hy : ys.getD i none with
  | some v => left; simp
  | none =>
    right
    by_contra hb
    rw [not_and_or] at hb
    have hb' : validBefore ys i = false ∨ validAfter ys i = false := by
      rcases hb with hb | hb
      · left
        cases hv : validBefore ys i
        · rfl
        · exact absurd hv hb
      · right
        cases hv : validAfter ys i
        · rfl
        · exact absurd hv hb
    rw [interpCol_getD_boundary idx ys i h hy hb'] at hs
    simp at hs

/-- Interpolating an already-interpolated column changes nothing. -/
theorem interpCol_idem (idx : List Int) (ys : List (Option Rat)) :
    interpCol idx (interpCol idx ys) = interpCol idx ys := by
  have hlen2 : (interpCol idx ys).length = ys.length := interpCol_length idx ys
  apply List.ext_getElem
  · simp [interpCol_length]
  · intro i h1 h2
    have hi : i < ys.length := by rw [← hlen2]; exact h2
    rw [← List.getD_eq_getElem _ none h1, ← List.getD_eq_getElem _ none h2]
    cases hy' : (interpCol idx ys).getD i none with
    | some v =>
      exact interpCol_getD_some idx (interpCol idx ys) i h2 v hy'
    | none =>
      obtain ⟨hyn, hb⟩ := interpCol_none_inv idx ys i hi hy'
      have hb' : validBefore (interpCol idx ys) i = false ∨
          validAfter (interpCol idx ys) i = false := by
        rcases hb with hb | hb
        · left
          cases hv : validBefore (interpCol idx ys) i
          · rfl
          · exfalso
            obtain ⟨j, hj_lt_i, hjs⟩ := (validBefore_iff (interpCol idx ys) i).mp hv
            have hj_len : j < ys.length := lt_trans hj_lt_i hi
            rcases interpCol_isSome_inv idx ys j hj_len hjs with hsome | hint
            · have hcon : validBefore ys i = true :=
                (validBefore_iff ys i).mpr ⟨j, hj_lt_i, hsome⟩
              rw [hb] at hcon
              exact absurd hcon (by simp)
            · obtain ⟨m, hm_lt, hms⟩ := (validBefore_iff ys j).mp hint.1
              have hcon : validBefore ys i = true :=
                (validBefore_iff ys i).mpr ⟨m, lt_trans hm_lt hj_lt_i, hms⟩
              rw [hb] at hcon
              exact absurd hcon (by simp)
        · right
          cases hv : validAfter (interpCol idx ys) i
          · rfl
          · exfalso
            obtain ⟨j, hj_len', hij, hjs⟩ := (validAfter_iff (interpCol idx ys) i).mp hv
            have hj_len : j < ys.length := by rw [← hlen2]; exact hj_len'
            rcases interpCol_isSome_inv idx ys j hj_len hjs with hsome | hint
            · have hcon : validAfter ys i = true :=
                (validAfter_iff ys i).mpr ⟨j, hj_len, hij, hsome⟩
              rw [hb] at hcon
              exact absurd hcon (by simp)
            · obtain ⟨m, hm_len, hjm, hms⟩ := (validAfter_iff ys j).mp hint.2
              have hcon : validAfter ys i = true :=
                (validAfter_iff ys i).mpr ⟨m, hm_len, lt_trans hij hjm, hms⟩
              rw [hb] at hcon
              exact absurd hcon (by simp)
      exact interpCol_getD_boundary idx (interpCol idx ys) i h2 hy' hb'

/-! ### Claims -/

/-- C4: nearest-neighbour interpolation is idempotent: applying the
interpolation step of the loader a second time to the result of a first application
produces no further changes — filled interior regions and the untouched
leading/trailing missing runs are fixed points. -/
theorem C4_interpolation_idempotent (df : Frame) :
    Frame.interpolate_nearest (Frame.interpolate_nearest df) =
      Frame.interpolate_nearest df := by
  show Frame.mk df.index ((df.cols.map (interpCol df.index)).map (interpCol df.index)) =
    Frame.mk df.index (df.cols.map (interpCol df.index))
  congr 1
  rw [List.map_map]
  apply List.map_congr_left
  intro ys _
  exact interpCol_idem df.index ys

/-- C5: `df_rates` returns exactly the result of the general date-indexed
loader on the same arguments, and differs only in its defaults: filename
`"fondsen.xlsx"` and sheet selector `"koersen"`. -/
theorem C5_df_rates_delegates (pd : Pandas) (env : Option String) :
    (∀ f ic sn, df_rates pd env f ic sn = _read_date_indexed_data pd env f ic sn) ∧
    df_rates pd env =
      _read_date_indexed_data pd env "fondsen.xlsx" (IdxCol.si (StrInt.i 0))
        (StrInt.s "koersen") :=
  ⟨fun _ _ _ => rfl, rfl⟩

/-- C6: for every catalogue entry, the local filename is the path-resolver
resolution of `"indices/" ++ lowercase(name) ++ ".csv"`; in particular with
the environment variable unset, AEX resolves to `"data/indices/aex.csv"`. -/
theorem C6_local_filename (i : Idx) (env : Option String) :
    Idx.filename i env = _data_path env ("indices/" ++ pyLower i.name ++ ".csv") ∧
    Idx.filename Idx.AEX none = "data/indices/aex.csv" :=
  ⟨rfl, rfl⟩

/-- C8: for every catalogue entry, the historical-data URL is
`"https://www.investing.com/indices/" ++ identifier ++ "-historical-data"`;
in particular DAX maps to the germany-30 historical-data URL. -/
theorem C8_historical_url (i : Idx) :
    Idx.ic_historical_data_url i =
      "https://www.investing.com/indices/" ++ i.value ++ "-historical-data" ∧
    Idx.ic_historical_data_url Idx.DAX =
      "https://www.investing.com/indices/germany-30-historical-data" :=
  ⟨rfl, rfl⟩

/-- C9: for every catalogue entry, the manual-download filename is the
relative path `"html/" ++ lowercase(name) ++ ".html"`, and it is never equal
to the resolver-joined local filename, whatever the base-directory
environment configuration is. -/
theorem C9_manual_download_filename (i : Idx) (env : Option String) :
    Idx.init_file i = "html/" ++ pyLower i.name ++ ".html" ∧
    Idx.init_file i ≠ Idx.filename i env := by
  refine ⟨rfl, ?_⟩
  intro h
  have h1 : (Idx.init_file i).data.getLast? = some 'l' := by
    show (("html/" ++ pyLower i.name) ++ ".html").data.getLast? = some 'l'
    rw [strAppend_data_getLast? _ _ (by decide)]
    rfl
  have h2 : (Idx.filename i env).data.getLast? = some 'v' := by
    show (osJoin (env.getD "data")
      (("indices/" ++ pyLower i.name) ++ ".csv")).data.getLast? = some 'v'
    rw [osJoin_data_getLast?]
    · rw [strAppend_data_getLast? _ _ (by decide)]
      rfl
    · intro hemp
      rw [String.data_append] at hemp
      exact absurd (List.append_eq_nil.mp hemp).2 (by decide)
  rw [h, h2] at h1
  exact absurd h1 (by decide)

/-- C2: a filename whose extension compares case-insensitively equal to
`".csv"` is parsed as delimited text from the resolved path with the given
index column, and the sheet selector is ignored; any other filename is
parsed as a spreadsheet workbook with the given sheet selector and index
column. -/
theorem C2_format_dispatch (pd : Pandas) (env : Option String) (f : String)
    (ic : IdxCol) (sn : StrInt) :
    (pyLower (splitext_ext f) = ".csv" →
      _read_data pd env f ic sn = pd.read_csv (_data_path env f) ic ∧
      ∀ sn', _read_data pd env f ic sn' = _read_data pd env f ic sn) ∧
    (pyLower (splitext_ext f) ≠ ".csv" →
      _read_data pd env f ic sn = pd.read_excel (_data_path env f) sn ic) := by
  constructor
  · intro hcsv
    have hb : (pyLower (splitext_ext f) == ".csv") = true := by
      rw [beq_iff_eq]
      exact hcsv
    constructor
    · unfold _read_data
      rw [if_pos hb]
    · intro sn'
      unfold _read_data
      rw [if_pos hb, if_pos hb]
  · intro hncsv
    have hb : (pyLower (splitext_ext f) == ".csv") = false := by
      rw [beq_eq_false_iff_ne]
      exact hncsv
    unfold _read_data
    rw [if_neg (by simp [hb])]

/-- Witness for C2: a `.CSV` file dispatches to csv parsing and an `.xlsx`
file dispatches to spreadsheet parsing with its sheet selector. -/
theorem C2_format_dispatch_witness :
    _read_data samplePandas none "x.CSV" (IdxCol.si (StrInt.i 0)) (StrInt.i 0) =
      samplePandas.read_csv (_data_path none "x.CSV") (IdxCol.si (StrInt.i 0)) ∧
    _read_data samplePandas none "fondsen.xlsx" (IdxCol.si (StrInt.i 0)) (StrInt.s "koersen") =
      samplePandas.read_excel (_data_path none "fondsen.xlsx") (StrInt.s "koersen")
        (IdxCol.si (StrInt.i 0)) :=
  ⟨((C2_format_dispatch samplePandas none "x.CSV" (IdxCol.si (StrInt.i 0))
      (StrInt.i 0)).1 (by decide)).1,
   (C2_format_dispatch samplePandas none "fondsen.xlsx" (IdxCol.si (StrInt.i 0))
      (StrInt.s "koersen")).2 (by decide)⟩

/-- C3 counterexample: changing the base-directory environment variable
between calls does not always change the result of the next call — changing
it from unset to the literal `"data"` is a change of the variable that
leaves the resolved path unchanged. -/
theorem C3_counterexample :
    (some "data" : Option String) ≠ none ∧
    _data_path (some "data") "rates.csv" = _data_path none "rates.csv" :=
  ⟨by decide, rfl⟩

/-- C3 (amended): path resolution returns the platform join of the current
base value (the literal `"data"` when the variable is unset) with the
filename, recomputed from the environment on every call; for a relative
filename, changing the variable between calls changes the result of the
next call exactly when the effective base prefix changes. -/
theorem C3_path_resolution (env b1 b2 : Option String) (f : String) :
    _data_path env f = osJoin (env.getD "data") f ∧
    _data_path none f = osJoin "data" f ∧
    (strStartsWithSlash f = false →
      (_data_path b1 f = _data_path b2 f ↔
        joinBase (b1.getD "data") = joinBase (b2.getD "data"))) := by
  refine ⟨rfl, rfl, ?_⟩
  intro hf
  unfold _data_path
  rw [osJoin_rel _ _ hf, osJoin_rel _ _ hf]
  constructor
  · intro h
    exact strAppend_right_cancel _ _ _ h
  · intro h
    rw [h]

/-- Witness for C3 (amended): concrete bases and a relative filename. -/
theorem C3_path_resolution_witness :
    _data_path (some "base") "x.csv" = osJoin "base" "x.csv" ∧
    (_data_path (some "a") "x.csv" = _data_path (some "b") "x.csv" ↔
      joinBase "a" = joinBase "b") :=
  ⟨(C3_path_resolution (some "base") (some "a") (some "b") "x.csv").1,
   (C3_path_resolution (some "base") (some "a") (some "b") "x.csv").2.2 (by decide)⟩

/-- C7: a load fails with the file-not-found, parser or index error reported
by the underlying read step; every underlying failure propagates unchanged
to the caller (nothing is caught or translated), a failure of the datetime
coercion also propagates unchanged, and a failed load returns no dataset. -/
theorem C7_error_propagation (pd : Pandas) (env : Option String) (f : String)
    (ic : IdxCol) (sn : StrInt) :
    (∀ p, _read_data pd env f ic sn = Except.error (PdError.fileNotFound p) →
      df_rates pd env f ic sn = Except.error (PdError.fileNotFound p)) ∧
    (∀ m, _read_data pd env f ic sn = Except.error (PdError.parserError m) →
      df_rates pd env f ic sn = Except.error (PdError.parserError m)) ∧
    (∀ m, _read_data pd env f ic sn = Except.error (PdError.indexError m) →
      df_rates pd env f ic sn = Except.error (PdError.indexError m)) ∧
    (∀ e, _read_data pd env f ic sn = Except.error e →
      df_rates pd env f ic sn = Except.error e) ∧
    (∀ df0 e, _read_data pd env f ic sn = Except.ok df0 →
      pd.to_datetime df0.index = Except.error e →
      df_rates pd env f ic sn = Except.error e) ∧
    (∀ e df, df_rates pd env f ic sn = Except.error e →
      df_rates pd env f ic sn ≠ Except.ok df) := by
  have hgen : ∀ e, _read_data pd env f ic sn = Except.error e →
      df_rates pd env f ic sn = Except.error e := by
    intro e he
    unfold df_rates _read_date_indexed_data
    rw [he]
  refine ⟨fun p => hgen _, fun m => hgen _, fun m => hgen _, hgen, ?_, ?_⟩
  · intro df0 e h0 h1
    unfold df_rates _read_date_indexed_data
    simp only [h0, h1]
  · intro e df he hok
    rw [he] at hok
    exact absurd hok (by simp)

/-- Witness for C7: a missing csv file fails the whole load with the
underlying file-not-found error. -/
theorem C7_error_propagation_witness :
    df_rates samplePandas none "missing.csv" (IdxCol.si (StrInt.i 0)) (StrInt.s "koersen") =
      Except.error (PdError.fileNotFound "data/missing.csv") :=
  (C7_error_propagation samplePandas none "missing.csv" (IdxCol.si (StrInt.i 0))
    (StrInt.s "koersen")).1 "data/missing.csv" (by rfl)

/-- C10: the seven identifier strings are pairwise distinct, the enumeration
has exactly seven distinct members, and for distinct entries the derived
describe, local-filename (under every base configuration), URL and
manual-download values are pairwise distinct. -/
theorem C10_seven_distinct :
    (∀ i j : Idx, i ≠ j → Idx.value i ≠ Idx.value j) ∧
    (allIdx.Nodup ∧ allIdx.length = 7 ∧ ∀ i : Idx, i ∈ allIdx) ∧
    (∀ i j : Idx, i ≠ j →
      Idx.describe i ≠ Idx.describe j ∧
      Idx.ic_historical_data_url i ≠ Idx.ic_historical_data_url j ∧
      Idx.init_file i ≠ Idx.init_file j) ∧
    (∀ (env : Option String) (i j : Idx), i ≠ j →
      Idx.filename i env ≠ Idx.filename j env) := by
  refine ⟨by decide, by decide, by decide, ?_⟩
  intro env i j hij h
  have hi : strStartsWithSlash ("indices/" ++ pyLower i.name ++ ".csv") = false := rfl
  have hj : strStartsWithSlash ("indices/" ++ pyLower j.name ++ ".csv") = false := rfl
  unfold Idx.filename _data_path at h
  rw [osJoin_rel _ _ hi, osJoin_rel _ _ hj] at h
  have hrel := strAppend_left_cancel _ _ _ h
  have hinj : ∀ a b : Idx,
      ("indices/" ++ pyLower a.name ++ ".csv" : String) =
        "indices/" ++ pyLower b.name ++ ".csv" → a = b := by decide
  exact hij (hinj i j hrel)

/-- Witness for C10: two concrete distinct entries have distinct identifiers
and distinct local filenames under the default base. -/
theorem C10_seven_distinct_witness :
    Idx.value Idx.DOW ≠ Idx.value Idx.SPX ∧
    Idx.filename Idx.DOW none ≠ Idx.filename Idx.SPX none :=
  ⟨C10_seven_distinct.1 Idx.DOW Idx.SPX (by decide),
   C10_seven_distinct.2.2.2 none Idx.DOW Idx.SPX (by decide)⟩

/-- C1: every dataset loaded via `df_rates` is the nearest-interpolated
image of the raw parsed table under the coerced datetime index: in every
column, every interior missing cell (one with a present value before it and
after it in row order) is filled with the value of a present row whose
index value is nearest among all present rows, present cells are unchanged,
and leading and trailing missing runs — in particular a missing first or
last row — stay missing. -/
theorem C1_nearest_interpolation (pd : Pandas) (env : Option String) (f : String)
    (ic : IdxCol) (sn : StrInt) (df : Frame)
    (hload : df_rates pd env f ic sn = Except.ok df) :
    ∃ df0 idx, _read_data pd env f ic sn = Except.ok df0 ∧
      pd.to_datetime df0.index = Except.ok idx ∧
      df.index = idx ∧ df.cols = df0.cols.map (interpCol idx) ∧
      ∀ ys ∈ df0.cols, ∀ i, i < ys.length →
        ((ys.getD i none).isSome →
          (interpCol idx ys).getD i none = ys.getD i none) ∧
        (ys.getD i none = none →
          (validBefore ys i = false ∨ validAfter ys i = false) →
          (interpCol idx ys).getD i none = none) ∧
        (ys.getD i none = none → validBefore ys i = true → validAfter ys i = true →
          ∃ j, j < ys.length ∧ (ys.getD j none).isSome ∧
            (interpCol idx ys).getD i none = ys.getD j none ∧
            ∀ k, k < ys.length → (ys.getD k none).isSome →
              (idx.getD j 0 - idx.getD i 0).natAbs ≤
                (idx.getD k 0 - idx.getD i 0).natAbs) := by
  unfold df_rates _read_date_indexed_data at hload
  cases h0 : _read_data pd env f ic sn with
  | error e =>
    rw [h0] at hload
    simp at hload
  | ok df0 =>
    rw [h0] at hload
    cases h1 : pd.to_datetime df0.index with
    | error e =>
      simp only [h1] at hload
      exact absurd hload (by simp)
    | ok idx =>
      simp only [h1] at hload
      have hdf : df = Frame.interpolate_nearest { index := idx, cols := df0.cols } := by
        have hload' : Except.ok (Frame.interpolate_nearest { index := idx, cols := df0.cols }) =
            (Except.ok df : Except PdError Frame) := hload
        injection hload' with hd
        exact hd.symm
      refine ⟨df0, idx, rfl, h1, ?_, ?_, ?_⟩
      · rw [hdf]
        rfl
      · rw [hdf]
        rfl
      · intro ys _ i hi
        refine ⟨?_, ?_, ?_⟩
        · intro hsome
          obtain ⟨v, hv⟩ := Option.isSome_iff_exists.mp hsome
          rw [hv]
          exact interpCol_getD_some idx ys i hi v hv
        · intro hnone hb
          exact interpCol_getD_boundary idx ys i hi hnone hb
        · intro hnone hbef haft
          exact interpCol_getD_interior idx ys i hi hnone hbef haft

/-- Witness for C1: a concrete three-row csv load through `df_rates`, whose
interior missing cell gets filled from the nearest present row. -/
theorem C1_nearest_interpolation_witness :
    ∃ df0 idx, _read_data samplePandas none "rates.csv" (IdxCol.si (StrInt.i 0))
        (StrInt.s "koersen") = Except.ok df0 ∧
      samplePandas.to_datetime df0.index = Except.ok idx ∧
      (Frame.mk [0, 1, 2] [[some 10, some 10, some 12]]).index = idx ∧
      (Frame.mk [0, 1, 2] [[some 10, some 10, some 12]]).cols =
        df0.cols.map (interpCol idx) ∧
      ∀ ys ∈ df0.cols, ∀ i, i < ys.length →
        ((ys.getD i none).isSome →
          (interpCol idx ys).getD i none = ys.getD i none) ∧
        (ys.getD i none = none →
          (validBefore ys i = false ∨ validAfter ys i = false) →
          (interpCol idx ys).getD i none = none) ∧
        (ys.getD i none = none → validBefore ys i = true → validAfter ys i = true →
          ∃ j, j < ys.length ∧ (ys.getD j none).isSome ∧
            (interpCol idx ys).getD i none = ys.getD j none ∧
            ∀ k, k < ys.length → (ys.getD k none).isSome →
              (idx.getD j 0 - idx.getD i 0).natAbs ≤
                (idx.getD k 0 - idx.getD i 0).natAbs) :=
  C1_nearest_interpolation samplePandas none "rates.csv" (IdxCol.si (StrInt.i 0))
    (StrInt.s "koersen") (Frame.mk [0, 1, 2] [[some 10, some 10, some 12]]) (by rfl)

/-- Witness for C9: the DOW entry under the default base configuration. -/
theorem C9_manual_download_filename_witness :
    Idx.init_file Idx.DOW = "html/dow.html" ∧
    Idx.init_file Idx.DOW ≠ Idx.filename Idx.DOW none :=
  ⟨(C9_manual_download_filename Idx.DOW none).1,
   (C9_manual_download_filename Idx.DOW none).2⟩
